import Mathlib

/-!
# Verification of the salon transaction system's data and reporting layer

Shallow embedding of the data model, query/report pipeline, credential
checks, cache layer and admin handlers of `src/streamlit_app.py`, together
with theorems settling the specification claims about them.

Conventions of the embedding:
* a pandas `DataFrame` of transactions is a `List Row` (row order is the
  DataFrame row order);
* monetary amounts (Python floats) are modelled as exact integers `ℤ`
  (think of a fixed sub-currency unit); no claim below depends on
  fractional amounts, only on sums, comparisons with zero and maxima,
  which exact integers represent faithfully;
* the Supabase tables `transactions`, `cashiers`, `activity_logs` are
  plain Lean lists; an `insert` appends, an `update ... eq` maps over the
  list touching the matching rows;
* the external SHA-256 digest (`hashlib.sha256(...).hexdigest()`) is an
  abstract parameter `hashPw : String → String`: no claim below depends on
  any property of the digest other than it being a fixed function;
* Python compares strings lexicographically by Unicode code point;
  `strLt`/`strLe` below implement exactly that order on Lean strings.
-/

namespace Salon

/-! ## String order (Python string comparison, used by pandas sorting) -/

/-- Lexicographic comparison of two character lists by code point. -/
def listCharLt : List Char → List Char → Bool
  | _, [] => false
  | [], _ :: _ => true
  | a :: as, b :: bs =>
    if a.toNat < b.toNat then true
    else if b.toNat < a.toNat then false
    else listCharLt as bs

/-- Python `a < b` on strings: strict lexicographic order by code point. -/
def strLt (a b : String) : Bool := listCharLt a.data b.data

/-- Python `a <= b` on strings. -/
def strLe (a b : String) : Bool := ! strLt b a

/-- `strLe` as a relation. -/
def strLeP (a b : String) : Prop := strLe a b = true

/-- `strLt` as a relation. -/
def strLtP (a b : String) : Prop := strLt a b = true

instance : DecidableRel strLeP := fun a b => inferInstanceAs (Decidable (strLe a b = true))

instance : DecidableRel strLtP := fun a b => inferInstanceAs (Decidable (strLt a b = true))

/-! ## Data model -/

/-- One transaction row, as stored in the `transactions` table and as it
appears in the cached DataFrame (`id` and `created_at` are server-assigned
and never consulted by the logic verified here, so they are omitted). -/
structure Row where
  customer_name : String
  service : String
  technician_name : String
  technician_type : String
  addons : Option String
  date_of_service : String
  amount : ℤ
  cashier_username : String
deriving Repr, DecidableEq

/-- One row of the `cashiers` table. -/
structure Cashier where
  id : Nat
  username : String
  password : String
  full_name : Option String
  active : Bool
deriving Repr, DecidableEq

/-- One row of the append-only `activity_logs` table (`created_at` is
server-assigned and never consulted). -/
structure LogEntry where
  cashier_username : String
  action : String
  details : String
deriving Repr, DecidableEq

/-! ## Daily KPI block (Reports & CSV page, lines 309–321) -/

/-- `df[df["date_of_service"] == day]` (lines 237 and 311): the rows of the
snapshot whose `date_of_service` equals the given day, in snapshot order. -/
def dayRows (snapshot : List Row) (day : String) : List Row :=
  snapshot.filter (fun r => r.date_of_service == day)

/-- `rows["amount"].sum()`: sum of the amount column (0 on an empty frame). -/
def sumAmount (rows : List Row) : ℤ :=
  (rows.map Row.amount).sum

/-- The summed amount of one technician's rows within `rows`
(one group of `rows.groupby("technician_name")["amount"].sum()`). -/
def techTotal (rows : List Row) (t : String) : ℤ :=
  sumAmount (rows.filter (fun r => r.technician_name == t))

/-- The group keys produced by `rows.groupby("technician_name")`: the
distinct technician names, sorted ascending (pandas `groupby` default
`sort=True` sorts the group keys in Python string order). -/
def sortedTechs (rows : List Row) : List String :=
  List.insertionSort strLeP (rows.map Row.technician_name).dedup

/-- `rows.groupby("technician_name")["amount"].sum()` as an association
list in index order: group keys ascending, each paired with its summed
amount. -/
def techTotals (rows : List Row) : List (String × ℤ) :=
  (sortedTechs rows).map (fun t => (t, techTotal rows t))

/-- Scan of `Series.idxmax`: starting from the entry `(k, v)`, keep the
current entry unless a strictly larger value appears, so the first entry
holding the maximum value wins. -/
def idxmaxGo (k : String) (v : ℤ) : List (String × ℤ) → String
  | [] => k
  | (k₁, v₁) :: rest => if v < v₁ then idxmaxGo k₁ v₁ rest else idxmaxGo k v rest

/-- `Series.idxmax()`: the index label of the first occurrence of the
maximum value, `none` on an empty series (the source guards this case and
shows "None"). -/
def idxmax : List (String × ℤ) → Option String
  | [] => none
  | (k, v) :: rest => some (idxmaxGo k v rest)

/-- The three KPI cards of the Reports page. -/
structure KPIs where
  totalSales : ℤ
  transactionCount : Nat
  topTechnician : Option String
deriving Repr, DecidableEq

/-- The daily KPI block (lines 309–321): filter the snapshot to the day,
total sales is `today_df["amount"].sum()`, the transaction count is
`len(today_df)`, and the top technician is
`today_df.groupby("technician_name")["amount"].sum().idxmax()` when the
day has rows. -/
def dailyKPIs (snapshot : List Row) (day : String) : KPIs :=
  { totalSales := sumAmount (dayRows snapshot day)
    transactionCount := (dayRows snapshot day).length
    topTechnician := idxmax (techTotals (dayRows snapshot day)) }

/-- Distinct elements in order of first appearance (used only to state the
spec's tie-breaking rule, not by the embedded code). -/
def firstUniqueAux (seen : List String) : List String → List String
  | [] => []
  | a :: rest =>
    if a ∈ seen then firstUniqueAux seen rest
    else a :: firstUniqueAux (a :: seen) rest

/-- The technician names of `rows` in order of first appearance. -/
def firstTechs (rows : List Row) : List String :=
  firstUniqueAux [] (rows.map Row.technician_name)

/-- The daily KPI computation as the specification words it: identical to
`dailyKPIs` except that the top technician maximises the summed amount
with ties broken by the technician first encountered in snapshot order. -/
def dailyKPIs_spec (snapshot : List Row) (day : String) : KPIs :=
  { totalSales := sumAmount (dayRows snapshot day)
    transactionCount := (dayRows snapshot day).length
    topTechnician :=
      idxmax ((firstTechs (dayRows snapshot day)).map
        (fun t => (t, techTotal (dayRows snapshot day) t))) }

/-- A two-row snapshot for one day whose technicians "Zoe" (seen first)
and "Amy" tie on summed amount. -/
def tieSnap : List Row :=
  [ { customer_name := "Ana", service := "Gel Mani", technician_name := "Zoe"
      technician_type := "Nails", addons := none
      date_of_service := "2024-05-01", amount := 100, cashier_username := "c1" }
  , { customer_name := "Ben", service := "Lash Lift", technician_name := "Amy"
      technician_type := "Lashes", addons := none
      date_of_service := "2024-05-01", amount := 100, cashier_username := "c1" } ]

/-! ## Report filter (C2) -/

/-- The cashier scoping modes of the report filter (§4.4 of the spec). -/
inductive CashierFilter where
  | AllCashiers : CashierFilter
  | CurrentCashierOnly (actingUser : String) : CashierFilter
  | SpecificUsername (name : String) : CashierFilter
deriving Repr, DecidableEq

/-- The date-and-cashier report filter. The exact-match date filter is the
source's `df[df["date_of_service"] == D]` (lines 237 and 311).
Modelled from the spec: the cashier-mode dispatch — the source UI only
ever applies the all-cashiers form of this filter, so the additional
exact-match restriction on `cashier_username` follows §4.4 of the spec. -/
def filterByDateAndCashier (snapshot : List Row) (d : String) : CashierFilter → List Row
  | .AllCashiers => dayRows snapshot d
  | .CurrentCashierOnly u => (dayRows snapshot d).filter (fun r => r.cashier_username == u)
  | .SpecificUsername n => (dayRows snapshot d).filter (fun r => r.cashier_username == n)

/-! ## Add-transaction form (lines 152–188) -/

/-- The options of the "Technician Type" radio widget (line 163). -/
def technicianTypeOptions : List String := ["Nails 💅", "Lashes 👁", "Others"]

/-- Helper of `pySplitWs`: scan the characters, accumulating the current
word in reverse; a whitespace character closes the current word, and runs
of whitespace produce no empty words. -/
def splitWsAux : List Char → List Char → List String
  | [], cur => if cur = [] then [] else [⟨cur.reverse⟩]
  | c :: cs, cur =>
    if c.isWhitespace then
      if cur = [] then splitWsAux cs []
      else ⟨cur.reverse⟩ :: splitWsAux cs []
    else splitWsAux cs (c :: cur)

/-- Python `str.split()` with no separator: split on runs of whitespace,
dropping empty pieces. -/
def pySplitWs (s : String) : List String := splitWsAux s.data []

/-- `technician_type.split()[0]` (line 174): the text of the selected radio
option without the trailing emoji. -/
def techTypeValue (choice : String) : String :=
  (pySplitWs choice).headD ""

/-- Python `str.strip()`: surrounding whitespace removed from both ends. -/
def pyStrip (s : String) : String :=
  ⟨((s.data.dropWhile Char.isWhitespace).reverse.dropWhile Char.isWhitespace).reverse⟩

/-- The insert payload built by the submit handler (lines 170–179). -/
def buildPayload (customer service technician_name choice addons date_str : String)
    (amount : ℤ) (cashier : String) : Row :=
  { customer_name := pyStrip customer
    service := pyStrip service
    technician_name := pyStrip technician_name
    technician_type := techTypeValue choice
    addons := if addons ≠ "" then some (pyStrip addons) else none
    date_of_service := date_str
    amount := amount
    cashier_username := cashier }

/-- The submit handler of the add-transaction form (lines 168–188): the
submission is accepted, and the insert payload built, exactly when
`customer and service and technician_name and amount > 0` holds — the
three required text fields are truthy (non-empty, whitespace included) and
the amount is positive; otherwise a warning is shown and nothing happens. -/
def submitTransaction (customer service technician_name choice addons date_str : String)
    (amount : ℤ) (cashier : String) : Option Row :=
  if customer ≠ "" ∧ service ≠ "" ∧ technician_name ≠ "" ∧ 0 < amount then
    some (buildPayload customer service technician_name choice addons date_str amount cashier)
  else none

/-- The submit step at the level of the `transactions` table: on acceptance
`insert_transaction` (lines 102–103) appends the payload row, otherwise the
table is untouched. -/
def handleSubmit (table : List Row)
    (customer service technician_name choice addons date_str : String)
    (amount : ℤ) (cashier : String) : List Row :=
  match submitTransaction customer service technician_name choice addons date_str amount cashier with
  | some p => table ++ [p]
  | none => table

/-! ## Login (lines 68–69 and 92–95) -/

/-- `login_user` (lines 92–95): select the cashier rows matching the
username, the digest of the supplied password and `active = true`, and
succeed iff the result set is non-empty (`bool(res.data)`). `hashPw`
abstracts `hash_password` (lines 68–69). -/
def login_user (hashPw : String → String) (cashiers : List Cashier)
    (username password : String) : Bool :=
  !(cashiers.filter (fun c =>
      c.username == username && c.password == hashPw password && c.active)).isEmpty

/-! ## Snapshot cache (lines 74–91 and 180–183) -/

/-- The single cache slot of `get_transactions_df`: the cached snapshot
together with the instant of the store fetch that produced it. -/
structure CacheState where
  cached : Option (List Row × Nat)
deriving Repr, DecidableEq

/-- The `ttl=60` of `@st.cache_data(ttl=60)` (line 74). -/
def cacheTTL : Nat := 60

/-- Modelled from the spec: the fixed-TTL single-slot cache that
`@st.cache_data(ttl=60)` (line 74) wraps around the store fetch lives in
the Streamlit library, not in this repository; §4.3 of the spec describes
it as returning the cached snapshot while the window since the last store
fetch has not elapsed, and otherwise fetching fresh, replacing the
snapshot and returning it. `cacheGet` returns the snapshot handed to the
caller, the next cache state, and whether the store was fetched. -/
def cacheGet (store : List Row) (now : Nat) (s : CacheState) : List Row × CacheState × Bool :=
  match s.cached with
  | some (snap, t) =>
    if now < t + cacheTTL then (snap, s, false)
    else (store, ⟨some (store, now)⟩, true)
  | none => (store, ⟨some (store, now)⟩, true)

/-- `refresh_transactions_cache` (lines 89–90): `get_transactions_df.clear()`
drops the cached entry, so the next access misses. -/
def cacheInvalidate (_s : CacheState) : CacheState := ⟨none⟩

/-- The fetch instant of the cached snapshot (0 when nothing is cached). -/
def fetchTime (s : CacheState) : Nat :=
  match s.cached with
  | some (_, t) => t
  | none => 0

/-- Lines 180–183: a successful insert appends the payload to the
`transactions` table and immediately clears the snapshot cache. -/
def insertAndRefresh (table : List Row) (p : Row) (s : CacheState) : List Row × CacheState :=
  (table ++ [p], cacheInvalidate s)

/-! ## Admin handlers (Cashier Management, lines 340–477) -/

/-- The two admin-managed tables together. -/
structure AdminState where
  cashiers : List Cashier
  logs : List LogEntry
deriving Repr, DecidableEq

/-- `log_activity` (lines 349–357): append the entry to `activity_logs`;
when the insert raises, the failure is swallowed inside `log_activity` (an
error banner is shown) and the log is simply not extended. `appendFails`
abstracts whether the store call raises. -/
def log_activity (logs : List LogEntry) (appendFails : Bool)
    (username action details : String) : List LogEntry :=
  if appendFails then logs else logs ++ [⟨username, action, details⟩]

/-- `update(...).eq("username", u)` on the `cashiers` table setting the
`active` flag (lines 428–430): every row whose username matches is
updated; a non-matching table is returned unchanged. -/
def setActiveDb (db : List Cashier) (u : String) (b : Bool) : List Cashier :=
  db.map (fun c => if c.username == u then { c with active := b } else c)

/-- `update(...).eq("username", u)` on the `cashiers` table setting the
password digest (lines 463–465). -/
def setPasswordDb (db : List Cashier) (u : String) (digest : String) : List Cashier :=
  db.map (fun c => if c.username == u then { c with password := digest } else c)

/-- The outcome of the Update Status handler: the caught store failure, or
success with the new state. -/
inductive StatusOutcome where
  | storeError : StatusOutcome
  | ok (st : AdminState) : StatusOutcome
deriving Repr, DecidableEq

/-- The Update Status handler (lines 426–437): inside `try`, update the
selected cashier's `active` flag, then log the action; the only failure
path is the store call raising (`storeFails`), caught and shown as an
error banner. A non-matching username is not detected: the update simply
touches no row and the handler still reports success. -/
def updateStatusHandler (st : AdminState) (actor selected : String) (active : Bool)
    (storeFails logFails : Bool) : StatusOutcome :=
  if storeFails then .storeError
  else .ok { cashiers := setActiveDb st.cashiers selected active
             logs := log_activity st.logs logFails actor "Update Status"
               (selected ++ " → " ++ (if active then "Active" else "Inactive")) }

/-- The outcome of the Save New Password handler: the two validation
branches, the caught store failure, or success with the new state. -/
inductive ResetOutcome where
  | warnMissing : ResetOutcome
  | errMismatch : ResetOutcome
  | storeError : ResetOutcome
  | ok (st : AdminState) : ResetOutcome
deriving Repr, DecidableEq

/-- The Save New Password handler (lines 455–473): warn when either
password input is empty, reject when they differ, then inside `try` update
the selected cashier's password digest to the hash of the new password and
log the action. As in the source, the log append comes after the update
and its failure is swallowed inside `log_activity`, so it can never undo
the committed update. -/
def savePasswordHandler (hashPw : String → String) (st : AdminState)
    (actor selected newPass confirmPass : String)
    (storeFails logFails : Bool) : ResetOutcome :=
  if newPass = "" ∨ confirmPass = "" then .warnMissing
  else if newPass ≠ confirmPass then .errMismatch
  else if storeFails then .storeError
  else .ok { cashiers := setPasswordDb st.cashiers selected (hashPw newPass)
             logs := log_activity st.logs logFails actor "Reset Password"
               ("Password updated for " ++ selected) }

/-! ## Raw fetch and column coercions (lines 74–87) -/

/-- A raw `date_of_service` value as the store may return it: already a
string, or a structured calendar date. -/
inductive RawDate where
  | strVal (s : String) : RawDate
  | ymd (y m d : Nat) : RawDate
deriving Repr, DecidableEq

/-- Two-digit zero padding for ISO date rendering. -/
def pad2 (n : Nat) : String := if n < 10 then "0" ++ toString n else toString n

/-- `astype(str)` on the `date_of_service` column: a value already stored
as text is unchanged, a structured date renders as ISO `YYYY-MM-DD`. -/
def rawDateToStr : RawDate → String
  | .strVal s => s
  | .ymd y m d => toString y ++ "-" ++ pad2 m ++ "-" ++ pad2 d

/-- A raw `transactions` row as the store returns it, before the DataFrame
coercions of `get_transactions_df`. `amount_raw` records the result of the
external numeric parser backing `pd.to_numeric(..., errors="coerce")`:
`some q` when the stored value parses as the number `q`, `none` when the
coercion fails (pandas `NaN`). -/
structure RawTxn where
  customer_name : String
  service : String
  technician_name : String
  technician_type : String
  addons : Option String
  date_raw : RawDate
  amount_raw : Option ℤ
  cashier_username : String
deriving Repr, DecidableEq

/-- `get_transactions_df` (lines 74–87) after a successful fetch: every
row's `amount` becomes `pd.to_numeric(..., errors="coerce").fillna(0.0)` —
the parsed number, or 0 when unparseable — and `date_of_service` becomes
its string rendering. (The `order("date_of_service", desc=True)` clause is
executed by the store, so the input list is taken in store order.) -/
def get_transactions_df (raw : List RawTxn) : List Row :=
  raw.map (fun s =>
    { customer_name := s.customer_name
      service := s.service
      technician_name := s.technician_name
      technician_type := s.technician_type
      addons := s.addons
      date_of_service := rawDateToStr s.date_raw
      amount := s.amount_raw.getD 0
      cashier_username := s.cashier_username })

/-! ## Concrete sample data for witnesses and counterexamples -/

/-- A sample transaction row. -/
def sampleRow : Row :=
  { customer_name := "Cara", service := "Pedi", technician_name := "Mo"
    technician_type := "Nails", addons := none
    date_of_service := "2024-06-01", amount := 250, cashier_username := "c2" }

/-- A sample cashier table with no user named "ghost". -/
def exCashiers : List Cashier :=
  [ { id := 1, username := "admin", password := "h1", full_name := none, active := true }
  , { id := 2, username := "liz", password := "h2", full_name := some "Liz", active := true } ]

/-- A raw transaction row whose stored amount does not parse as a number. -/
def badRaw : RawTxn :=
  { customer_name := "Ana", service := "Gel", technician_name := "Liz"
    technician_type := "Nails", addons := none, date_raw := .strVal "2024-05-01"
    amount_raw := none, cashier_username := "c1" }

/-! ## Order lemmas for the string comparison -/

theorem listCharLt_irrefl : ∀ as, listCharLt as as = false
  | [] => rfl
  | a :: as => by
    simp [listCharLt, listCharLt_irrefl as]

theorem listCharLt_asymm : ∀ as bs, listCharLt as bs = true → listCharLt bs as = false
  | [], bs => by cases bs <;> simp [listCharLt]
  | a :: as, [] => by simp [listCharLt]
  | a :: as, b :: bs => by
    intro h
    rcases Nat.lt_trichotomy a.toNat b.toNat with hc | hc | hc
    · simp [listCharLt, Nat.lt_asymm hc, hc]
    · have hab : a = b := Char.eq_of_val_eq (UInt32.toNat.inj hc)
      subst hab
      simp only [listCharLt, lt_self_iff_false, if_false] at h ⊢
      exact listCharLt_asymm as bs h
    · simp [listCharLt, Nat.lt_asymm hc, hc] at h

theorem listCharLt_trans :
    ∀ as bs cs, listCharLt as bs = true → listCharLt bs cs = true → listCharLt as cs = true
  | as, bs, [] => by intro _ h2; cases bs <;> simp [listCharLt] at h2
  | as, [], c :: cs => by intro h1 _; cases as <;> simp [listCharLt] at h1 ⊢
  | [], b :: bs, c :: cs => by intro _ _; simp [listCharLt]
  | a :: as, b :: bs, c :: cs => by
    intro h1 h2
    rcases Nat.lt_trichotomy a.toNat b.toNat with hab | hab | hab
    · rcases Nat.lt_trichotomy b.toNat c.toNat with hbc | hbc | hbc
      · simp [listCharLt, Nat.lt_trans hab hbc]
      · simp [listCharLt, hbc ▸ hab]
      · simp [listCharLt, Nat.lt_asymm hbc, hbc] at h2
    · have hb : a = b := Char.eq_of_val_eq (UInt32.toNat.inj hab)
      subst hb
      simp only [listCharLt, lt_self_iff_false, if_false] at h1 h2 ⊢
      rcases Nat.lt_trichotomy a.toNat c.toNat with hac | hac | hac
      · simp [hac]
      · have hcc : a = c := Char.eq_of_val_eq (UInt32.toNat.inj hac)
        subst hcc
        simp only [lt_self_iff_false, if_false] at h2 ⊢
        exact listCharLt_trans as bs cs h1 h2
      · simp [Nat.lt_asymm hac, hac] at h2
    · simp [listCharLt, Nat.lt_asymm hab, hab] at h1

theorem listCharLt_total :
    ∀ as bs, listCharLt as bs = false → listCharLt bs as = false → as = bs
  | [], [] => by intro _ _; rfl
  | [], b :: bs => by intro h _; simp [listCharLt] at h
  | a :: as, [] => by intro _ h; simp [listCharLt] at h
  | a :: as, b :: bs => by
    intro h1 h2
    rcases Nat.lt_trichotomy a.toNat b.toNat with hc | hc | hc
    · simp [listCharLt, hc] at h1
    · have hab : a = b := Char.eq_of_val_eq (UInt32.toNat.inj hc)
      subst hab
      simp only [listCharLt, lt_self_iff_false, if_false] at h1 h2
      rw [listCharLt_total as bs h1 h2]
    · simp [listCharLt, hc] at h2

theorem strLeP_refl (a : String) : strLeP a a := by
  simp [strLeP, strLe, strLt, listCharLt_irrefl]

theorem strLtP_of_leP_ne {a b : String} (hle : strLeP a b) (hne : a ≠ b) : strLtP a b := by
  unfold strLeP strLe at hle
  unfold strLtP strLt
  rw [Bool.not_eq_true'] at hle
  cases hab : listCharLt a.data b.data
  · exact absurd (String.toList_inj.mp (listCharLt_total a.data b.data hab hle)) hne
  · rfl

theorem strLeP_of_leP_ltP {a b c : String} (h1 : strLeP a b) (h2 : strLtP b c) : strLeP a c := by
  unfold strLeP strLe strLt at h1 ⊢
  unfold strLtP strLt at h2
  rw [Bool.not_eq_true'] at h1 ⊢
  cases hca : listCharLt c.data a.data
  · rfl
  · rw [listCharLt_trans _ _ _ h2 hca] at h1
    simp at h1

instance : IsTotal String strLeP where
  total a b := by
    unfold strLeP strLe strLt
    cases h : listCharLt b.data a.data
    · left; rfl
    · right
      rw [listCharLt_asymm _ _ h]
      rfl

instance : IsTrans String strLeP where
  trans a b c h1 h2 := by
    unfold strLeP strLe strLt at h1 h2 ⊢
    rw [Bool.not_eq_true'] at h1 h2 ⊢
    cases hca : listCharLt c.data a.data
    · rfl
    · cases hbc : listCharLt b.data c.data
      · rw [listCharLt_total _ _ hbc h2] at h1
        rw [hca] at h1
        exact h1
      · rw [listCharLt_trans _ _ _ hbc hca] at h1
        simp at h1

/-! ## Properties of the grouped-and-sorted technician totals -/

theorem sortedTechs_nodup (rows : List Row) : (sortedTechs rows).Nodup := by
  unfold sortedTechs
  exact ((List.perm_insertionSort strLeP _).nodup_iff).mpr (List.nodup_dedup _)

theorem sortedTechs_pairwise_lt (rows : List Row) : (sortedTechs rows).Pairwise strLtP := by
  have hs : (sortedTechs rows).Pairwise strLeP := List.sorted_insertionSort strLeP _
  exact hs.imp₂ (fun _ _ hle hne => strLtP_of_leP_ne hle hne) (sortedTechs_nodup rows)

theorem mem_sortedTechs {rows : List Row} {t : String} :
    t ∈ sortedTechs rows ↔ t ∈ rows.map Row.technician_name := by
  unfold sortedTechs
  rw [List.mem_insertionSort, List.mem_dedup]

theorem sortedTechs_eq_nil_iff {rows : List Row} : sortedTechs rows = [] ↔ rows = [] := by
  constructor
  · intro h
    cases hr : rows with
    | nil => rfl
    | cons r rs =>
      have hmem : r.technician_name ∈ sortedTechs rows :=
        mem_sortedTechs.mpr (by rw [hr]; simp)
      rw [h] at hmem
      cases hmem
  · intro h
    subst h
    rfl

theorem mem_techTotals {rows : List Row} {t : String} {w : ℤ} :
    (t, w) ∈ techTotals rows ↔ t ∈ sortedTechs rows ∧ w = techTotal rows t := by
  unfold techTotals
  constructor
  · intro hp
    obtain ⟨u, hu, hue⟩ := List.mem_map.mp hp
    obtain ⟨rfl, rfl⟩ := Prod.mk.injEq .. ▸ hue
    exact ⟨hu, rfl⟩
  · rintro ⟨h1, rfl⟩
    exact List.mem_map.mpr ⟨t, h1, rfl⟩

theorem techTotals_pairwise (rows : List Row) :
    (techTotals rows).Pairwise (fun p q => strLtP p.1 q.1) := by
  unfold techTotals
  rw [List.pairwise_map]
  exact sortedTechs_pairwise_lt rows

theorem techTotals_eq_nil_iff {rows : List Row} : techTotals rows = [] ↔ rows = [] := by
  unfold techTotals
  rw [List.map_eq_nil_iff]
  exact sortedTechs_eq_nil_iff

/-- `idxmaxGo` starting from `(k, v)` over a list whose keys, together
with `k`, are strictly increasing, returns the key of an entry holding the
maximum value; every tied entry has a key greater or equal to it. -/
theorem idxmaxGo_spec :
    ∀ (L : List (String × ℤ)) (k : String) (v : ℤ),
      ((k, v) :: L).Pairwise (fun p q => strLtP p.1 q.1) →
      ∃ w : ℤ, (idxmaxGo k v L, w) ∈ (k, v) :: L ∧
        ∀ p ∈ (k, v) :: L, p.2 ≤ w ∧ (p.2 = w → strLeP (idxmaxGo k v L) p.1)
  | [], k, v => by
    intro _
    refine ⟨v, by simp [idxmaxGo], ?_⟩
    intro p hp
    simp only [List.mem_singleton] at hp
    subst hp
    exact ⟨le_refl v, fun _ => strLeP_refl k⟩
  | (k₁, v₁) :: L, k, v => by
    intro hpw
    by_cases hv : v < v₁
    · have hpw' : ((k₁, v₁) :: L).Pairwise (fun p q => strLtP p.1 q.1) := hpw.of_cons
      obtain ⟨w, hmem, hb⟩ := idxmaxGo_spec L k₁ v₁ hpw'
      refine ⟨w, ?_, ?_⟩
      · simp only [idxmaxGo, if_pos hv]
        exact List.mem_cons_of_mem _ hmem
      · intro p hp
        simp only [idxmaxGo, if_pos hv]
        rcases List.mem_cons.mp hp with hp | hp
        · subst hp
          have hv₁w : v₁ ≤ w := (hb (k₁, v₁) (List.mem_cons_self _ _)).1
          have hvw : v < w := lt_of_lt_of_le hv hv₁w
          exact ⟨le_of_lt hvw, fun hvv => absurd hvv (ne_of_lt hvw)⟩
        · exact hb p hp
    · have hsub : ((k, v) :: L).Sublist ((k, v) :: (k₁, v₁) :: L) :=
        List.Sublist.cons₂ (k, v) (List.sublist_cons_self (k₁, v₁) L)
      have hpw' : ((k, v) :: L).Pairwise (fun p q => strLtP p.1 q.1) :=
        List.Pairwise.sublist hsub hpw
      obtain ⟨w, hmem, hb⟩ := idxmaxGo_spec L k v hpw'
      refine ⟨w, ?_, ?_⟩
      · simp only [idxmaxGo, if_neg hv]
        rcases List.mem_cons.mp hmem with h | h
        · exact List.mem_cons.mpr (Or.inl h)
        · exact List.mem_cons_of_mem _ (List.mem_cons_of_mem _ h)
      · intro p hp
        simp only [idxmaxGo, if_neg hv]
        rcases List.mem_cons.mp hp with hp | hp
        · subst hp
          exact hb (k, v) (List.mem_cons_self _ _)
        rcases List.mem_cons.mp hp with hp | hp
        · subst hp
          have hv₁v : v₁ ≤ v := le_of_not_lt hv
          have hvw : v ≤ w := (hb (k, v) (List.mem_cons_self _ _)).1
          refine ⟨le_trans hv₁v hvw, ?_⟩
          intro hveq
          have hv_eq : v = w := le_antisymm hvw (hveq ▸ hv₁v)
          have hres_k : strLeP (idxmaxGo k v L) k :=
            (hb (k, v) (List.mem_cons_self _ _)).2 hv_eq
          have hkk₁ : strLtP k k₁ :=
            (List.pairwise_cons.mp hpw).1 (k₁, v₁) (List.mem_cons_self _ _)
          exact strLeP_of_leP_ltP hres_k hkk₁
        · exact hb p (List.mem_cons_of_mem _ hp)

/-! ## C1 — daily KPIs -/

/-- C1 counterexample: on a day where "Zoe" (first encountered in snapshot
order) and "Amy" tie on summed amount, the code's KPI block reports
topTechnician "Amy" (pandas sorts the group keys, and `idxmax` takes the
first sorted key holding the maximum), while the claim's tie-break rule —
first encountered in snapshot order — demands "Zoe". -/
theorem dailyKPIs_tiebreak_counterexample :
    (dailyKPIs tieSnap "2024-05-01").totalSales = 200 ∧
    (dailyKPIs tieSnap "2024-05-01").transactionCount = 2 ∧
    (dailyKPIs tieSnap "2024-05-01").topTechnician = some "Amy" ∧
    (dailyKPIs_spec tieSnap "2024-05-01").topTechnician = some "Zoe" ∧
    dailyKPIs tieSnap "2024-05-01" ≠ dailyKPIs_spec tieSnap "2024-05-01" := by
  refine ⟨by decide, by decide, by decide, by decide, by decide⟩

/-- C1 (amended): for every snapshot and day, the daily KPI computation
returns totalSales equal to the sum of amount over the rows whose
date_of_service equals the day and transactionCount equal to the number of
such rows; topTechnician is absent exactly when no row matches the day,
and otherwise is a technician of the day's rows whose summed amount is
maximal, with ties broken by the smallest technician name in Python string
order (lexicographic by Unicode code point) — not by snapshot order. -/
theorem dailyKPIs_correct (snapshot : List Row) (day : String) :
    (dailyKPIs snapshot day).totalSales = sumAmount (dayRows snapshot day) ∧
    (dailyKPIs snapshot day).transactionCount = (dayRows snapshot day).length ∧
    ((dailyKPIs snapshot day).topTechnician = none ↔ dayRows snapshot day = []) ∧
    ∀ t, (dailyKPIs snapshot day).topTechnician = some t →
      t ∈ (dayRows snapshot day).map Row.technician_name ∧
      ∀ u ∈ (dayRows snapshot day).map Row.technician_name,
        techTotal (dayRows snapshot day) u ≤ techTotal (dayRows snapshot day) t ∧
        (techTotal (dayRows snapshot day) u = techTotal (dayRows snapshot day) t →
          strLeP t u) := by
  refine ⟨rfl, rfl, ?_, ?_⟩
  · show idxmax (techTotals (dayRows snapshot day)) = none ↔ _
    rw [← techTotals_eq_nil_iff]
    cases techTotals (dayRows snapshot day) with
    | nil => simp [idxmax]
    | cons p L =>
      obtain ⟨k, v⟩ := p
      simp [idxmax]
  · intro t ht
    change idxmax (techTotals (dayRows snapshot day)) = some t at ht
    cases hL : techTotals (dayRows snapshot day) with
    | nil =>
      rw [hL] at ht
      cases ht
    | cons p L =>
      obtain ⟨k, v⟩ := p
      rw [hL] at ht
      simp only [idxmax, Option.some.injEq] at ht
      have hpw : ((k, v) :: L).Pairwise (fun p q => strLtP p.1 q.1) := by
        rw [← hL]; exact techTotals_pairwise _
      obtain ⟨w, hmem, hb⟩ := idxmaxGo_spec L k v hpw
      rw [ht] at hmem hb
      rw [← hL] at hmem hb
      obtain ⟨htmem, hw⟩ := mem_techTotals.mp hmem
      subst hw
      refine ⟨mem_sortedTechs.mp htmem, ?_⟩
      intro u hu
      have humem : (u, techTotal (dayRows snapshot day) u) ∈ techTotals (dayRows snapshot day) :=
        mem_techTotals.mpr ⟨mem_sortedTechs.mpr hu, rfl⟩
      exact hb (u, techTotal (dayRows snapshot day) u) humem

/-- Witness for C1 at a concrete snapshot: the instantiated conclusion at
`tieSnap`, extracting the characterisation of the reported top technician
"Amy". -/
theorem dailyKPIs_correct_witness :
    "Amy" ∈ (dayRows tieSnap "2024-05-01").map Row.technician_name ∧
    ∀ u ∈ (dayRows tieSnap "2024-05-01").map Row.technician_name,
      techTotal (dayRows tieSnap "2024-05-01") u ≤ techTotal (dayRows tieSnap "2024-05-01") "Amy" ∧
      (techTotal (dayRows tieSnap "2024-05-01") u = techTotal (dayRows tieSnap "2024-05-01") "Amy" →
        strLeP "Amy" u) :=
  (dailyKPIs_correct tieSnap "2024-05-01").2.2.2 "Amy" (by decide)

/-! ## C2 — report filter -/

/-- C2: filtering with mode AllCashiers returns exactly the rows of the
snapshot whose date_of_service equals D, regardless of cashier, and mode
CurrentCashierOnly(u) returns exactly those additionally recorded by
cashier u. -/
theorem filterByDateAndCashier_correct (snapshot : List Row) (d u : String) :
    (∀ r, r ∈ filterByDateAndCashier snapshot d .AllCashiers ↔
        r ∈ snapshot ∧ r.date_of_service = d) ∧
    (∀ r, r ∈ filterByDateAndCashier snapshot d (.CurrentCashierOnly u) ↔
        r ∈ snapshot ∧ r.date_of_service = d ∧ r.cashier_username = u) := by
  constructor
  · intro r
    simp only [filterByDateAndCashier, dayRows, List.mem_filter, beq_iff_eq]
  · intro r
    simp only [filterByDateAndCashier, dayRows, List.mem_filter, beq_iff_eq]
    tauto

/-! ## C3 — technician type enumeration -/

/-- C3 counterexample: selecting the third radio option "Others" on an
otherwise valid submission is accepted and stores technician_type
"Others", which is not in the claimed enumerated set {Nails, Lashes,
Other}. -/
theorem technicianType_counterexample :
    "Others" ∈ technicianTypeOptions ∧
    (submitTransaction "Ana" "Gel Mani" "Liz" "Others" "" "2024-05-01" 500 "c1").map
      Row.technician_type = some "Others" ∧
    "Others" ∉ (["Nails", "Lashes", "Other"] : List String) := by
  refine ⟨by decide, by decide, by decide⟩

/-- C3 (amended): every transaction accepted by the add-transaction
operation — whose technician type comes from one of the three radio
options — has a technician_type in the enumerated set
{Nails, Lashes, Others} (the third value is "Others", not "Other"). -/
theorem technicianType_enumerated (choice : String) (hc : choice ∈ technicianTypeOptions)
    (customer service technician_name addons date_str cashier : String) (amount : ℤ)
    (p : Row)
    (hs : submitTransaction customer service technician_name choice addons date_str
      amount cashier = some p) :
    p.technician_type ∈ (["Nails", "Lashes", "Others"] : List String) := by
  unfold submitTransaction at hs
  split at hs
  · obtain ⟨rfl⟩ := Option.some.injEq .. ▸ hs
    show techTypeValue choice ∈ _
    simp only [technicianTypeOptions, List.mem_cons, List.not_mem_nil, or_false] at hc
    rcases hc with rfl | rfl | rfl <;> decide
  · cases hs

/-- Witness for C3 at a concrete accepted submission. -/
theorem technicianType_enumerated_witness :
    (buildPayload "Ana" "Gel Mani" "Liz" "Nails 💅" "" "2024-05-01" 500 "c1").technician_type
      ∈ (["Nails", "Lashes", "Others"] : List String) :=
  technicianType_enumerated "Nails 💅" (by decide) "Ana" "Gel Mani" "Liz" "" "2024-05-01" "c1"
    500 _ (by decide)

/-! ## C4 — login verification -/

/-- Helper shared by the login and password-reset results: the Boolean
login check succeeds iff a matching active row exists. -/
theorem login_user_eq_true_iff (hashPw : String → String) (cashiers : List Cashier)
    (username password : String) :
    login_user hashPw cashiers username password = true ↔
      ∃ c ∈ cashiers, c.username = username ∧ c.password = hashPw password ∧
        c.active = true := by
  simp [login_user, List.isEmpty_iff, List.eq_nil_iff_forall_not_mem, List.mem_filter,
    and_assoc]

/-- C4: login verification succeeds iff some cashier row matches the
username exactly, stores the digest of the supplied password, and is
active; in particular it fails for an unknown username, for a matching
username with a wrong password digest, and when every matching credential
pair belongs to an inactive account. -/
theorem login_user_correct (hashPw : String → String) (cashiers : List Cashier)
    (username password : String) :
    (login_user hashPw cashiers username password = true ↔
      ∃ c ∈ cashiers, c.username = username ∧ c.password = hashPw password ∧
        c.active = true) ∧
    ((∀ c ∈ cashiers, c.username ≠ username) →
      login_user hashPw cashiers username password = false) ∧
    ((∀ c ∈ cashiers, c.username = username → c.password ≠ hashPw password) →
      login_user hashPw cashiers username password = false) ∧
    ((∀ c ∈ cashiers, c.username = username → c.password = hashPw password →
        c.active = false) →
      login_user hashPw cashiers username password = false) := by
  have hiff := login_user_eq_true_iff hashPw cashiers username password
  refine ⟨hiff, ?_, ?_, ?_⟩
  · intro hall
    rw [Bool.eq_false_iff]
    intro htrue
    obtain ⟨c, hc, h1, _, _⟩ := hiff.mp htrue
    exact hall c hc h1
  · intro hall
    rw [Bool.eq_false_iff]
    intro htrue
    obtain ⟨c, hc, h1, h2, _⟩ := hiff.mp htrue
    exact hall c hc h1 h2
  · intro hall
    rw [Bool.eq_false_iff]
    intro htrue
    obtain ⟨c, hc, h1, h2, h3⟩ := hiff.mp htrue
    rw [hall c hc h1 h2] at h3
    cases h3

/-- Witness for C4: a concrete store on which correct credentials of the
active cashier succeed, and an unknown username fails. -/
theorem login_user_correct_witness :
    login_user (fun s => s ++ "#") [⟨1, "liz", "pw#", none, true⟩] "zoe" "pw" = false :=
  (login_user_correct (fun s => s ++ "#") [⟨1, "liz", "pw#", none, true⟩] "zoe" "pw").2.1
    (by decide)

/-! ## C5 — insert validation -/

/-- C5: a submission is accepted — a payload built and handed to
`insert_transaction` — iff the amount is positive and the three required
text fields are non-empty; when any condition fails the submission is
rejected (warning banner) and the transactions table is not written. -/
theorem insert_validation (table : List Row)
    (customer service technician_name choice addons date_str : String)
    (amount : ℤ) (cashier : String) :
    ((∃ p, submitTransaction customer service technician_name choice addons date_str
        amount cashier = some p) ↔
      (customer ≠ "" ∧ service ≠ "" ∧ technician_name ≠ "" ∧ 0 < amount)) ∧
    (¬ (customer ≠ "" ∧ service ≠ "" ∧ technician_name ≠ "" ∧ 0 < amount) →
      submitTransaction customer service technician_name choice addons date_str
          amount cashier = none ∧
      handleSubmit table customer service technician_name choice addons date_str
          amount cashier = table) := by
  constructor
  · unfold submitTransaction
    split
    · rename_i h
      exact ⟨fun _ => h, fun _ => ⟨_, rfl⟩⟩
    · rename_i h
      constructor
      · rintro ⟨p, hp⟩
        cases hp
      · intro hc
        exact absurd hc h
  · intro h
    have hnone : submitTransaction customer service technician_name choice addons date_str
        amount cashier = none := by
      unfold submitTransaction
      rw [if_neg h]
    refine ⟨hnone, ?_⟩
    unfold handleSubmit
    rw [hnone]

/-- Witness for C5: the empty customer name is rejected and the table is
left unchanged. -/
theorem insert_validation_witness :
    submitTransaction "" "Gel Mani" "Liz" "Nails 💅" "" "2024-05-01" 100 "c1" = none ∧
    handleSubmit [] "" "Gel Mani" "Liz" "Nails 💅" "" "2024-05-01" 100 "c1" = [] :=
  (insert_validation [] "" "Gel Mani" "Liz" "Nails 💅" "" "2024-05-01" 100 "c1").2 (by decide)

/-! ## C9 — whitespace-only required fields -/

/-- C9: a submission whose required text fields are whitespace-only (hence
non-empty, so truthy) with a positive amount passes validation, and since
the stored values are stripped of surrounding whitespace, the persisted
row has empty-string customer_name, service and technician_name. -/
theorem whitespace_fields_accepted :
    ∃ p, submitTransaction " " "  " "\t" "Nails 💅" "" "2024-05-02" 100 "c1" = some p ∧
      handleSubmit [] " " "  " "\t" "Nails 💅" "" "2024-05-02" 100 "c1" = [p] ∧
      p.customer_name = "" ∧ p.service = "" ∧ p.technician_name = "" := by
  refine ⟨buildPayload " " "  " "\t" "Nails 💅" "" "2024-05-02" 100 "c1",
    ?_, ?_, ?_, ?_, ?_⟩ <;> decide

/-! ## C6 — snapshot cache -/

/-- C6: a second get() within the TTL window of the cached snapshot's
fetch instant returns the identical snapshot from the identical state
without a second store fetch; and after a successful insert the cache is
invalidated, so the next get() fetches fresh regardless of any remaining
TTL and its snapshot contains the just-recorded transaction. -/
theorem cache_ttl_and_invalidate (store : List Row) (s0 : CacheState) (t0 t1 t2 : Nat)
    (p : Row)
    (h : t1 < fetchTime (cacheGet store t0 s0).2.1 + cacheTTL) :
    (cacheGet store t1 (cacheGet store t0 s0).2.1
      = ((cacheGet store t0 s0).1, (cacheGet store t0 s0).2.1, false)) ∧
    ((cacheGet ((insertAndRefresh store p (cacheGet store t0 s0).2.1).1) t2
        ((insertAndRefresh store p (cacheGet store t0 s0).2.1).2)).2.2 = true ∧
      p ∈ (cacheGet ((insertAndRefresh store p (cacheGet store t0 s0).2.1).1) t2
        ((insertAndRefresh store p (cacheGet store t0 s0).2.1).2)).1) := by
  constructor
  · obtain ⟨cached⟩ := s0
    cases cached with
    | none =>
      simp only [cacheGet, fetchTime] at h ⊢
      rw [if_pos h]
    | some pr =>
      obtain ⟨snap, tf⟩ := pr
      by_cases h0 : t0 < tf + cacheTTL
      · simp only [cacheGet, if_pos h0, fetchTime] at h ⊢
        rw [if_pos h]
      · simp only [cacheGet, if_neg h0, fetchTime] at h ⊢
        rw [if_pos h]
  · simp [insertAndRefresh, cacheInvalidate, cacheGet]

/-- Witness for C6 at concrete times: a get at time 0 from a cold cache
followed by a get at time 59 hits the cache, and after inserting
`sampleRow` the next get returns a snapshot containing it. -/
theorem cache_ttl_and_invalidate_witness :
    (cacheGet [] 59 (cacheGet [] 0 ⟨none⟩).2.1
      = ((cacheGet [] 0 ⟨none⟩).1, (cacheGet [] 0 ⟨none⟩).2.1, false)) ∧
    sampleRow ∈ (cacheGet ((insertAndRefresh [] sampleRow (cacheGet [] 0 ⟨none⟩).2.1).1) 1000
        ((insertAndRefresh [] sampleRow (cacheGet [] 0 ⟨none⟩).2.1).2)).1 :=
  ⟨(cache_ttl_and_invalidate [] ⟨none⟩ 0 59 1000 sampleRow (by decide)).1,
    (cache_ttl_and_invalidate [] ⟨none⟩ 0 59 1000 sampleRow (by decide)).2.2⟩

/-! ## C7 — audit failure does not roll back the password reset -/

/-- C7: when the activity-log append fails during a password reset, the
handler still succeeds, the log is untouched, the new digest is persisted
on every row of the selected username, and a subsequent login verification
with the new password succeeds (the account existing and being active). -/
theorem passwordReset_survives_logFailure (hashPw : String → String) (st : AdminState)
    (actor selected newPass : String)
    (hne : newPass ≠ "")
    (hex : ∃ c ∈ st.cashiers, c.username = selected ∧ c.active = true) :
    ∃ st2, savePasswordHandler hashPw st actor selected newPass newPass false true
        = .ok st2 ∧
      st2.logs = st.logs ∧
      (∀ c ∈ st2.cashiers, c.username = selected → c.password = hashPw newPass) ∧
      login_user hashPw st2.cashiers selected newPass = true := by
  have hrun : savePasswordHandler hashPw st actor selected newPass newPass false true
      = .ok { cashiers := setPasswordDb st.cashiers selected (hashPw newPass)
              logs := st.logs } := by
    unfold savePasswordHandler
    rw [if_neg (fun hor => hne (hor.elim id id)), if_neg (by simp)]
    rfl
  refine ⟨_, hrun, rfl, ?_, ?_⟩
  · intro c hc hcu
    unfold setPasswordDb at hc
    obtain ⟨c0, hc0, rfl⟩ := List.mem_map.mp hc
    by_cases h0 : c0.username = selected
    · simp [h0]
    · rw [if_neg (by simp [h0])] at hcu ⊢
      exact absurd hcu h0
  · rw [login_user_eq_true_iff]
    obtain ⟨c, hc, hcu, hact⟩ := hex
    refine ⟨{ c with password := hashPw newPass }, ?_, hcu, rfl, hact⟩
    show _ ∈ setPasswordDb st.cashiers selected (hashPw newPass)
    unfold setPasswordDb
    have hsel : (if (c.username == selected) = true
        then { c with password := hashPw newPass } else c)
        = { c with password := hashPw newPass } := by
      rw [if_pos (by simp [hcu])]
    exact hsel ▸ List.mem_map_of_mem _ hc

/-- Witness for C7: resetting "liz"'s password with a failing log append
still lets "liz" log in with the new password. -/
theorem passwordReset_survives_logFailure_witness :
    ∃ st2, savePasswordHandler (fun s => s ++ "#") ⟨exCashiers, []⟩ "admin" "liz"
        "newpw" "newpw" false true = .ok st2 ∧
      st2.logs = (⟨exCashiers, []⟩ : AdminState).logs ∧
      (∀ c ∈ st2.cashiers, c.username = "liz" → c.password = (fun s => s ++ "#") "newpw") ∧
      login_user (fun s => s ++ "#") st2.cashiers "liz" "newpw" = true :=
  passwordReset_survives_logFailure (fun s => s ++ "#") ⟨exCashiers, []⟩ "admin" "liz"
    "newpw" (by decide) (by decide)

/-! ## C8 — status and password updates on a missing username -/

/-- C8 counterexample: with no cashier named "ghost" in the store, both
admin handlers run to success — the status update returns ok with the
cashier table unchanged (the action even gets logged), and the password
reset likewise — instead of failing with NotFound as the claim states. -/
theorem setOps_noNotFound_counterexample :
    (∀ c ∈ exCashiers, c.username ≠ "ghost") ∧
    updateStatusHandler ⟨exCashiers, []⟩ "admin" "ghost" true false false
      = .ok ⟨exCashiers, [⟨"admin", "Update Status", "ghost → Active"⟩]⟩ ∧
    savePasswordHandler (fun s => s ++ "#") ⟨exCashiers, []⟩ "admin" "ghost" "npw" "npw"
        false false
      = .ok ⟨exCashiers, [⟨"admin", "Reset Password", "Password updated for ghost"⟩]⟩ := by
  refine ⟨by decide, by decide, by decide⟩

/-- C8 (amended): setActive and setPassword are idempotent updates keyed
by username; when the given username does not exist in the cashier store
they do not fail with NotFound — the handlers still report success and
leave the cashier table unchanged. -/
theorem setOps_idempotent_and_missing_noop (db : List Cashier) (u digest : String) (b : Bool)
    (st : AdminState) (actor : String) (lf : Bool) (hashPw : String → String) (pw : String)
    (hmiss : ∀ c ∈ st.cashiers, c.username ≠ u)
    (hpw : pw ≠ "") :
    setActiveDb (setActiveDb db u b) u b = setActiveDb db u b ∧
    setPasswordDb (setPasswordDb db u digest) u digest = setPasswordDb db u digest ∧
    (∃ st2, updateStatusHandler st actor u b false lf = .ok st2 ∧
      st2.cashiers = st.cashiers) ∧
    (∃ st2, savePasswordHandler hashPw st actor u pw pw false lf = .ok st2 ∧
      st2.cashiers = st.cashiers) := by
  have hnoopA : setActiveDb st.cashiers u b = st.cashiers := by
    unfold setActiveDb
    conv_rhs => rw [← List.map_id st.cashiers]
    apply List.map_congr_left
    intro c hc
    rw [if_neg (by simp [hmiss c hc])]
    rfl
  have hnoopP : setPasswordDb st.cashiers u (hashPw pw) = st.cashiers := by
    unfold setPasswordDb
    conv_rhs => rw [← List.map_id st.cashiers]
    apply List.map_congr_left
    intro c hc
    rw [if_neg (by simp [hmiss c hc])]
    rfl
  refine ⟨?_, ?_, ?_, ?_⟩
  · unfold setActiveDb
    rw [List.map_map]
    apply List.map_congr_left
    intro c _
    by_cases h : c.username = u
    · simp [Function.comp, h]
    · simp [Function.comp, h]
  · unfold setPasswordDb
    rw [List.map_map]
    apply List.map_congr_left
    intro c _
    by_cases h : c.username = u
    · simp [Function.comp, h]
    · simp [Function.comp, h]
  · exact ⟨_, rfl, hnoopA⟩
  · have hrunP : savePasswordHandler hashPw st actor u pw pw false lf
        = .ok { cashiers := setPasswordDb st.cashiers u (hashPw pw)
                logs := log_activity st.logs lf actor "Reset Password"
                  ("Password updated for " ++ u) } := by
      unfold savePasswordHandler
      rw [if_neg (fun hor => hpw (hor.elim id id)), if_neg (by simp)]
      rfl
    exact ⟨_, hrunP, hnoopP⟩

/-- Witness for C8 on the concrete store without a "ghost" user. -/
theorem setOps_idempotent_and_missing_noop_witness :
    setActiveDb (setActiveDb exCashiers "ghost" true) "ghost" true
      = setActiveDb exCashiers "ghost" true ∧
    setPasswordDb (setPasswordDb exCashiers "ghost" "d") "ghost" "d"
      = setPasswordDb exCashiers "ghost" "d" ∧
    (∃ st2, updateStatusHandler ⟨exCashiers, []⟩ "admin" "ghost" true false false = .ok st2 ∧
      st2.cashiers = (⟨exCashiers, []⟩ : AdminState).cashiers) ∧
    (∃ st2, savePasswordHandler (fun s => s ++ "#") ⟨exCashiers, []⟩ "admin" "ghost"
        "npw" "npw" false false = .ok st2 ∧
      st2.cashiers = (⟨exCashiers, []⟩ : AdminState).cashiers) :=
  setOps_idempotent_and_missing_noop exCashiers "ghost" "d" true ⟨exCashiers, []⟩ "admin"
    false (fun s => s ++ "#") "npw" (by decide) (by decide)

/-! ## C10 — amount and date coercions of the cached fetch -/

/-- C10: every row of a fetched snapshot has its amount equal to the
numeric parse of the stored value, with an unparseable value replaced by 0
rather than raising, and its date_of_service equal to the string rendering
of the stored date; a stored row with an unparseable amount therefore
yields a snapshot row with amount 0, even though every submission the
add-transaction operation accepts has a strictly positive amount. -/
theorem get_transactions_df_coercion (raw : List RawTxn) :
    (∀ r ∈ get_transactions_df raw, ∃ s ∈ raw,
        r.amount = s.amount_raw.getD 0 ∧ r.date_of_service = rawDateToStr s.date_raw) ∧
    (∀ s ∈ raw, s.amount_raw = none →
        ∃ r ∈ get_transactions_df raw, r.amount = 0) ∧
    (∀ (customer service technician_name choice addons date_str cashier : String)
        (amount : ℤ) (p : Row),
      submitTransaction customer service technician_name choice addons date_str amount
          cashier = some p → 0 < p.amount) := by
  refine ⟨?_, ?_, ?_⟩
  · intro r hr
    obtain ⟨s, hs, rfl⟩ := List.mem_map.mp hr
    exact ⟨s, hs, rfl, rfl⟩
  · intro s hs hnone
    refine ⟨_, List.mem_map_of_mem _ hs, ?_⟩
    simp [hnone]
  · intro customer service technician_name choice addons date_str cashier amount p hp
    unfold submitTransaction at hp
    split at hp
    · rename_i hcond
      obtain ⟨rfl⟩ := Option.some.injEq .. ▸ hp
      exact hcond.2.2.2
    · cases hp

/-- Witness for C10: fetching a store holding one row with an unparseable
amount yields a snapshot with a zero-amount row. -/
theorem get_transactions_df_coercion_witness :
    ∃ r ∈ get_transactions_df [badRaw], r.amount = 0 :=
  (get_transactions_df_coercion [badRaw]).2.1 badRaw (by decide) rfl

end Salon
